import Mathlib

/-!
Shallow embedding of the rideshare marketplace simulation (src/main.py).

Conventions of the embedding:
* Python floats are modelled as exact rationals (`Rat`); the spec's data
  model declares these quantities as reals.
* The two pseudorandom sources of the program are modelled as streams of
  natural numbers with a cursor: `rng` stands for the model's shared seeded
  source (`self.random` of the mesa `Model`, used for movement, marketing
  sampling, scheduler shuffling and churn), `grng` stands for the state of
  the process-global `random` module (used by `random.choice` on line 180
  of `check_for_driver`).  Each primitive draw consumes one stream element:
  an index draw among `n` items is `value % n`, and the churn test
  `random() < 0.25` is modelled as `value % 4 == 0` (one draw, probability
  one quarter under a uniform stream; none of the verified claims are
  distributional).
* Agents are lists indexed by `unique_id`: passengers `0 .. N_p - 1`,
  drivers `N_p .. N_p + N_d - 1`, exactly as constructed in
  `RideshareModel.__init__`.  The mesa grid is the external collaborator of
  the spec; `agentsAt cells` is modelled as the agents whose position lies
  in the cell.
-/

namespace Slog

/-- One of the two pseudorandom sources: an infinite stream of naturals and
a cursor. -/
structure Rng where
  stream : Nat → Nat
  cursor : Nat

def Rng.next (g : Rng) : Nat × Rng :=
  (g.stream g.cursor, ⟨g.stream, g.cursor + 1⟩)

/-- Draw an index below `n` (callers guard `n ≠ 0`, as `random.choice` and
`random.randrange` do in the source). -/
def randIdx (g : Rng) (n : Nat) : Nat × Rng :=
  (g.next.1 % n, g.next.2)

/-- The churn test `self.random.random() < 0.25` (one draw). -/
def randBelowQuarter (g : Rng) : Bool × Rng :=
  (g.next.1 % 4 == 0, g.next.2)

/-- `Passenger.__init__`: position, `app_on`, `had_ride`. -/
structure Passenger where
  pos : Int × Int
  app_on : Bool
  had_ride : Bool
deriving DecidableEq, Repr

/-- `Driver.__init__`: position, `app_on`, `had_passenger`. -/
structure Driver where
  pos : Int × Int
  app_on : Bool
  had_passenger : Bool
deriving DecidableEq, Repr

/-- `Company.__init__` state. -/
structure Company where
  funding : Rat
  revenue_history : List Rat
  cash_history : List Rat
  budget_previous_step : Rat
  revenue : Rat
  rides_this_round : Nat
  spending : Rat
  pnl : Rat
deriving DecidableEq, Repr

/-- The configuration passed to `RideshareModel.__init__`. -/
structure Config where
  num_passengers : Nat
  num_drivers : Nat
  width : Nat
  height : Nat
  co_funding : Rat
  profit_per_ride : Rat
  passenger_cac : Rat
  driver_cac : Rat
deriving DecidableEq, Repr

/-- One published per-round statistics row (`calculate_statistics` prints
one such row per round). -/
structure StatsRow where
  step : Nat
  spend : Rat
  rev : Rat
  cash : Rat
  pnl : Rat
  d_pen : Rat
  p_pen : Rat
  d_succ : Rat
  p_succ : Rat
deriving DecidableEq, Repr

/-- The whole `RideshareModel` state.  `rng` is the model's seeded source,
`grng` the process-global `random` module state. -/
structure ModelState where
  cfg : Config
  passengers : List Passenger
  drivers : List Driver
  company : Company
  running : Bool
  steps : Nat
  rng : Rng
  grng : Rng
  stats : List StatsRow

def dummyPassenger : Passenger := ⟨(0, 0), false, false⟩

def dummyDriver : Driver := ⟨(0, 0), false, false⟩

/-- Indices of passengers with `app_on = False` (line 62, in schedule
order, i.e. ascending `unique_id`). -/
def inactivePassengerIdx (s : ModelState) : List Nat :=
  (List.range s.passengers.length).filter
    (fun i => !(s.passengers.getD i dummyPassenger).app_on)

/-- Indices of drivers with `app_on = False` (line 63). -/
def inactiveDriverIdx (s : ModelState) : List Nat :=
  (List.range s.drivers.length).filter
    (fun i => !(s.drivers.getD i dummyDriver).app_on)

/-- Line 65: share of passengers without a ride last round. -/
def failure_rate_passenger (s : ModelState) : Rat :=
  ((s.passengers.filter (fun p => !p.had_ride)).length : Rat) /
    (s.cfg.num_passengers : Rat)

/-- Line 66: share of drivers without a passenger last round. -/
def failure_rate_driver (s : ModelState) : Rat :=
  ((s.drivers.filter (fun d => !d.had_passenger)).length : Rat) /
    (s.cfg.num_drivers : Rat)

/-- Line 68. -/
def total_failure_rate (s : ModelState) : Rat :=
  failure_rate_passenger s + failure_rate_driver s

/-- The tuple returned by `Company.allocate_budget`, plus the `running`
flag as left by the method's side effects on `self.model.running`. -/
structure Alloc where
  passenger_budget : Rat
  driver_budget : Rat
  num_passengers_to_market : Int
  num_drivers_to_market : Int
  running : Bool
deriving DecidableEq, Repr

/-- `Company.allocate_budget` (lines 53-94).  Python's float floor
division `//` is exact floor division on rationals here.  The source's
single `if total_failure_rate == 0` assigning both budgets is rendered as
two `if`s with the same condition, and `driver_share = 1 -
passenger_share` is inlined. -/
def allocate_budget (s : ModelState) : Alloc :=
  let r1 := if s.company.funding < min s.cfg.passenger_cac s.cfg.driver_cac
    then false else s.running
  let r2 := if s.company.funding < 0 then false else r1
  let total_budget := s.company.funding / 2
  let nInactP := (inactivePassengerIdx s).length
  let nInactD := (inactiveDriverIdx s).length
  let tfr := total_failure_rate s
  let passenger_budget :=
    if tfr = 0 then 0
    else
      min (total_budget * (failure_rate_passenger s / tfr))
        ((nInactP : Rat) * s.cfg.passenger_cac)
  let driver_budget :=
    if tfr = 0 then 0
    else
      min (total_budget * (1 - failure_rate_passenger s / tfr))
        ((nInactD : Rat) * s.cfg.driver_cac)
  let nP : Int := min (nInactP : Int)
    (Rat.floor (passenger_budget / s.cfg.passenger_cac))
  let nD : Int := min (nInactD : Int)
    (Rat.floor (driver_budget / s.cfg.driver_cac))
  let r3 := if passenger_budget + driver_budget < 0 then false else r2
  let r4 :=
    if s.company.cash_history.length > 20 ∧
        s.company.cash_history.getD (s.company.cash_history.length - 1) 0 >
          s.company.cash_history.getD (s.company.cash_history.length - 20) 0
    then false else r3
  ⟨passenger_budget, driver_budget, nP, nD, r4⟩

/-- `random.sample(l, k)` drawn from the seeded stream: `k` distinct picks
without replacement.  This totalisation stops early on an exhausted
population and clamps a negative `k` to zero; `sample_raises` below states
the exact condition under which the Python call raises `ValueError`
instead. -/
def sampleAux : Nat → Rng → List Nat → List Nat × Rng
  | 0, g, _ => ([], g)
  | k + 1, g, l =>
    if l.isEmpty then ([], g)
    else
      let vg := randIdx g l.length
      let x := l.getD vg.1 0
      let rg := sampleAux k vg.2 (l.eraseIdx vg.1)
      (x :: rg.1, rg.2)

def sample (g : Rng) (l : List Nat) (k : Int) : List Nat × Rng :=
  sampleAux k.toNat g l

/-- `random.sample(population, k)` raises `ValueError` exactly when
`k < 0` or `k > len(population)`. -/
def sample_raises (k : Int) (populationLen : Nat) : Prop :=
  k < 0 ∨ (populationLen : Int) < k

/-- Set `app_on = True` on the passengers at the given indices
(lines 106-107). -/
def markPassengers (ps : List Passenger) (ids : List Nat) : List Passenger :=
  ids.foldl
    (fun acc i => acc.set i { acc.getD i dummyPassenger with app_on := true })
    ps

/-- Set `app_on = True` on the drivers at the given indices
(lines 112-113). -/
def markDrivers (ds : List Driver) (ids : List Nat) : List Driver :=
  ids.foldl
    (fun acc i => acc.set i { acc.getD i dummyDriver with app_on := true })
    ds

/-- `Company.step` (lines 96-123): allocate, market to sampled inactive
agents, then update revenue, funding, the two histories, the rides
counter, spending and pnl. -/
def companyStep (s : ModelState) : ModelState :=
  let a := allocate_budget s
  let sp := sample s.rng (inactivePassengerIdx s) a.num_passengers_to_market
  let passengers' := markPassengers s.passengers sp.1
  let sMid : ModelState :=
    { s with passengers := passengers', rng := sp.2, running := a.running }
  let sd := sample sMid.rng (inactiveDriverIdx sMid) a.num_drivers_to_market
  let drivers' := markDrivers s.drivers sd.1
  let c := s.company
  let revenue := s.cfg.profit_per_ride * (c.rides_this_round : Rat)
  let funding' := c.funding + revenue - (a.passenger_budget + a.driver_budget)
  { s with
    passengers := passengers'
    drivers := drivers'
    rng := sd.2
    running := a.running
    company :=
      { c with
        revenue := revenue
        funding := funding'
        revenue_history := c.revenue_history ++ [revenue]
        cash_history := c.cash_history ++ [funding']
        rides_this_round := 0
        spending := a.passenger_budget + a.driver_budget
        pnl := revenue - (a.passenger_budget + a.driver_budget) } }

/-- `grid.get_neighborhood(pos, moore=True, include_center=False)` on the
non-toroidal grid: the up-to-8 in-bounds Moore neighbours. -/
def mooreNeighborhood (cfg : Config) (pos : Int × Int) : List (Int × Int) :=
  ([-1, 0, 1] : List Int).flatMap fun dx =>
    ([-1, 0, 1] : List Int).filterMap fun dy =>
      if dx = 0 ∧ dy = 0 then none
      else
        let q : Int × Int := (pos.1 + dx, pos.2 + dy)
        if 0 ≤ q.1 ∧ q.1 < (cfg.width : Int) ∧ 0 ≤ q.2 ∧ q.2 < (cfg.height : Int)
        then some q else none

/-- Lines 166-172 of `check_for_driver`: all cells `(x+dx, y+dy)` with
`dx, dy ∈ [-10, 10]`, clipped to the grid bounds. -/
def searchCells (cfg : Config) (pos : Int × Int) : List (Int × Int) :=
  ((List.range 21).map (fun k => (k : Int) - 10)).flatMap fun dx =>
    ((List.range 21).map (fun k => (k : Int) - 10)).filterMap fun dy =>
      let q : Int × Int := (pos.1 + dx, pos.2 + dy)
      if 0 ≤ q.1 ∧ q.1 < (cfg.width : Int) ∧ 0 ≤ q.2 ∧ q.2 < (cfg.height : Int)
      then some q else none

/-- Lines 173-175: the driver indices found in the search window with
`app_on = True`, gathered cell by cell. -/
def candidateDrivers (s : ModelState) (pos : Int × Int) : List Nat :=
  (searchCells s.cfg pos).flatMap fun c =>
    (List.range s.drivers.length).filter fun j =>
      ((s.drivers.getD j dummyDriver).pos == c) &&
        (s.drivers.getD j dummyDriver).app_on

/-- `RideshareModel.check_for_driver` (lines 164-184).  The driver choice
on line 180 is `random.choice`, the process-global `random` module, hence
draws from `grng` and not from the model's seeded `rng`. -/
def check_for_driver (i : Nat) (s : ModelState) : ModelState :=
  match s.passengers.get? i with
  | none => s
  | some p =>
    let cands := candidateDrivers s p.pos
    if cands.isEmpty then s
    else
      let vg := randIdx s.grng cands.length
      let j := cands.getD vg.1 0
      let d := s.drivers.getD j dummyDriver
      { s with
        passengers :=
          s.passengers.set i { p with had_ride := true, app_on := true }
        drivers :=
          s.drivers.set j { d with had_passenger := true, app_on := true }
        grng := vg.2
        company :=
          { s.company with
            rides_this_round := s.company.rides_this_round + 1 } }

/-- The movement draw shared by both agent kinds (lines 19-21 and 37-39):
one uniformly random in-bounds Moore neighbour, consuming one draw of the
seeded source. -/
def moveDraw (s : ModelState) (p1pos : Int × Int) : (Int × Int) × Rng :=
  let cells := mooreNeighborhood s.cfg p1pos
  let vg := randIdx s.rng cells.length
  (cells.getD vg.1 p1pos, vg.2)

/-- `Passenger.step` (lines 16-25): clear `had_ride`, move to a uniformly
random in-bounds Moore neighbour, then look for a driver when the app is
on. -/
def passengerStep (i : Nat) (s : ModelState) : ModelState :=
  match s.passengers.get? i with
  | none => s
  | some p =>
    let p1 := { p with had_ride := false }
    let mv := moveDraw s p1.pos
    let p2 := { p1 with pos := mv.1 }
    let s1 := { s with passengers := s.passengers.set i p2, rng := mv.2 }
    if p2.app_on && !p2.had_ride then check_for_driver i s1 else s1

/-- `Driver.step` (lines 34-39): clear `had_passenger` and move. -/
def driverStep (j : Nat) (s : ModelState) : ModelState :=
  match s.drivers.get? j with
  | none => s
  | some d =>
    let d1 := { d with had_passenger := false }
    let mv := moveDraw s d1.pos
    let d2 := { d1 with pos := mv.1 }
    { s with drivers := s.drivers.set j d2, rng := mv.2 }

/-- Dispatch one scheduled agent by `unique_id` (passengers hold ids
`0 .. N_p - 1`, drivers the following `N_d` ids). -/
def stepAgentById (id : Nat) (s : ModelState) : ModelState :=
  if id < s.passengers.length then passengerStep id s
  else driverStep (id - s.passengers.length) s

/-- Fisher-Yates resampling of the round's processing order, drawn from
the seeded source (`RandomActivation.step` shuffles the agent keys with
`self.model.random`). -/
def fyAux : Nat → Rng → List Nat → List Nat × Rng
  | 0, g, _ => ([], g)
  | fuel + 1, g, l =>
    if l.isEmpty then ([], g)
    else
      let vg := randIdx g l.length
      let x := l.getD vg.1 0
      let rg := fyAux fuel vg.2 (l.eraseIdx vg.1)
      (x :: rg.1, rg.2)

def drawOrder (g : Rng) (l : List Nat) : List Nat × Rng :=
  fyAux l.length g l

def foldSteps (order : List Nat) (s : ModelState) : ModelState :=
  order.foldl (fun t id => stepAgentById id t) s

/-- `self.schedule.step()`: shuffle the ids, step every agent once in that
order, and advance the schedule's step counter. -/
def schedulePhase (s : ModelState) : ModelState :=
  let o := drawOrder s.rng (List.range (s.passengers.length + s.drivers.length))
  let s1 := foldSteps o.1 { s with rng := o.2 }
  { s1 with steps := s1.steps + 1 }

/-- The row printed by `RideshareModel.calculate_statistics` (the second
definition, lines 212-235, which shadows the first). -/
def statsRowOf (s : ModelState) : StatsRow :=
  { step := s.steps
    spend := s.company.spending
    rev := ((s.passengers.filter (fun p => p.had_ride)).length : Rat) *
      s.cfg.profit_per_ride
    cash := s.company.funding - s.company.spending
    pnl := ((s.passengers.filter (fun p => p.had_ride)).length : Rat) *
        s.cfg.profit_per_ride - s.company.spending
    d_pen := ((s.drivers.filter (fun d => d.app_on)).length : Rat) /
      (s.cfg.num_drivers : Rat) * 100
    p_pen := ((s.passengers.filter (fun p => p.app_on)).length : Rat) /
      (s.cfg.num_passengers : Rat) * 100
    d_succ := ((s.drivers.filter (fun d => d.had_passenger)).length : Rat) /
      (s.cfg.num_drivers : Rat) * 100
    p_succ := ((s.passengers.filter (fun p => p.had_ride)).length : Rat) /
      (s.cfg.num_passengers : Rat) * 100 }

/-- `RideshareModel.calculate_statistics`: publish the row and record
`budget_previous_step`. -/
def calculate_statistics (s : ModelState) : ModelState :=
  { s with
    stats := s.stats ++ [statsRowOf s]
    company := { s.company with budget_previous_step := s.company.funding } }

/-- Churn of one scheduled agent (lines 243-247): an unmatched driver or
passenger is deactivated with probability one quarter; the draw happens
only when the kind and flag tests pass (Python's short-circuit `and`). -/
def churnAgentById (id : Nat) (s : ModelState) : ModelState :=
  if id < s.passengers.length then
    let p := s.passengers.getD id dummyPassenger
    if !p.had_ride then
      let bg := randBelowQuarter s.rng
      if bg.1 then
        { s with
          passengers := s.passengers.set id { p with app_on := false }
          rng := bg.2 }
      else { s with rng := bg.2 }
    else s
  else
    let j := id - s.passengers.length
    if j < s.drivers.length then
      let d := s.drivers.getD j dummyDriver
      if !d.had_passenger then
        let bg := randBelowQuarter s.rng
        if bg.1 then
          { s with
            drivers := s.drivers.set j { d with app_on := false }
            rng := bg.2 }
        else { s with rng := bg.2 }
      else s
    else s

/-- Lines 243-247: churn every scheduled agent, in schedule insertion
order (passengers first, then drivers). -/
def churnPhase (s : ModelState) : ModelState :=
  (List.range (s.passengers.length + s.drivers.length)).foldl
    (fun t id => churnAgentById id t) s

/-- `RideshareModel.step` (lines 237-247). -/
def modelStep (s : ModelState) : ModelState :=
  if s.running = false then s
  else churnPhase (calculate_statistics (schedulePhase (companyStep s)))

/-- Placement of one agent in `RideshareModel.__init__`:
`self.random.randrange(width)` then `randrange(height)`. -/
def drawPos (cfg : Config) (g : Rng) : (Int × Int) × Rng :=
  let (x, g1) := randIdx g cfg.width
  let (y, g2) := randIdx g1 cfg.height
  (((x : Int), (y : Int)), g2)

def initPassengers (cfg : Config) : Nat → Rng → List Passenger × Rng
  | 0, g => ([], g)
  | n + 1, g =>
    let (p, g1) := drawPos cfg g
    let (rest, g2) := initPassengers cfg n g1
    (⟨p, false, false⟩ :: rest, g2)

def initDrivers (cfg : Config) : Nat → Rng → List Driver × Rng
  | 0, g => ([], g)
  | n + 1, g =>
    let (p, g1) := drawPos cfg g
    let (rest, g2) := initDrivers cfg n g1
    (⟨p, false, false⟩ :: rest, g2)

/-- `RideshareModel.__init__`: place the agents at seeded random
positions, all inactive, and create the Company with the configured
funding.  `seed` is the seeded stream of the run, `gseed` the state of the
process-global `random` module when the run starts. -/
def initModel (cfg : Config) (seed gseed : Nat → Nat) : ModelState :=
  let g0 : Rng := ⟨seed, 0⟩
  let (ps, g1) := initPassengers cfg cfg.num_passengers g0
  let (ds, g2) := initDrivers cfg cfg.num_drivers g1
  { cfg := cfg
    passengers := ps
    drivers := ds
    company :=
      { funding := cfg.co_funding
        revenue_history := []
        cash_history := []
        budget_previous_step := cfg.co_funding
        revenue := 0
        rides_this_round := 0
        spending := 0
        pnl := 0 }
    running := true
    steps := 0
    rng := g2
    grng := ⟨gseed, 0⟩
    stats := [] }

/-! ### Concrete runs

A small fully-explicit scenario on a `60 × 1` grid: four passengers placed
at `x = 15, 50, 52, 54`, two drivers at `x = 7` (driver `0`) and `x = 23`
(driver `1`).  The seeded stream first yields the placement draws, then
zeros (move left, deactivate on churn, pick the first sample / choice
candidate, identity shuffle), except that draw 29 (driver `1`'s first
movement) is `1`, sending it right.  In round 1 passenger `0` finds both
drivers in its search window, so the choice between them is made by the
process-global source. -/

def cfgA : Config :=
  { num_passengers := 4
    num_drivers := 2
    width := 60
    height := 1
    co_funding := 80
    profit_per_ride := 2
    passenger_cac := 5
    driver_cac := 10 }

def seedListA : List Nat :=
  [15, 0, 50, 0, 52, 0, 54, 0, 7, 0, 23, 0] ++
    [0, 0, 0, 0, 0, 0] ++ [4, 4, 0, 0, 0, 0] ++ [0, 1]

def seedA : Nat → Nat := fun n => seedListA.getD n 0

def gZero : Nat → Nat := fun _ => 0

def gOne : Nat → Nat := fun _ => 1

/-- The scenario run when the process-global `random` module yields zeros
(round 1's `random.choice` picks driver `0`). -/
def runA (n : Nat) : ModelState := modelStep^[n] (initModel cfgA seedA gZero)

/-- The same configuration and the same seeded stream, but the
process-global `random` module yields ones (round 1's `random.choice`
picks driver `1`). -/
def runB (n : Nat) : ModelState := modelStep^[n] (initModel cfgA seedA gOne)

/-- `cfgA` with a negative per-ride profit (the configuration contract of
the spec constrains populations, grid, funding and CACs, but not the sign
of `profit_per_ride`). -/
def cfgNeg : Config := { cfgA with profit_per_ride := -1000 }

def runNeg (n : Nat) : ModelState :=
  modelStep^[n] (initModel cfgNeg seedA gZero)

/-- One passenger and one driver on a `2 × 1` grid with a large negative
per-ride profit: both agents are activated in round 1 and match in every
round (the driver steps first each round, so its `had_passenger` flag
survives to the round's end), driving the funding negative while both
failure rates are 0. -/
def cfgC4 : Config :=
  { num_passengers := 1
    num_drivers := 1
    width := 2
    height := 1
    co_funding := 40
    profit_per_ride := -1000
    passenger_cac := 5
    driver_cac := 10 }

/-- Placement draws (passenger at `x = 0`, driver at `x = 1`), the two
marketing samples, then per round: a shuffle putting the driver first and
the two movement draws. -/
def seedListC4 : List Nat :=
  [0, 0, 1, 0] ++ [0, 0] ++ [1, 0] ++ [0, 0] ++ [1, 0] ++ [0, 0]

def seedC4 : Nat → Nat := fun n => seedListC4.getD n 0

def runC4 (n : Nat) : ModelState :=
  modelStep^[n] (initModel cfgC4 seedC4 gZero)

/-- Count of passengers with `had_ride = True`. -/
def countHadRide (l : List Passenger) : Nat :=
  (l.filter (fun p => p.had_ride)).length

def dummyRow : StatsRow := ⟨0, 0, 0, 0, 0, 0, 0, 0, 0⟩

/-- The configuration, financial state and published statistics of a model
state, as one tuple: everything the agent-movement and churn phases must
leave untouched. -/
def finView (s : ModelState) :
    Config × Rat × Rat × Rat × List Rat × List Rat × List StatsRow :=
  (s.cfg, s.company.funding, s.company.spending, s.company.revenue,
    s.company.revenue_history, s.company.cash_history, s.stats)

/-- Count of `had_ride` flags over a chosen index set. -/
def countHadRideOn (ids : List Nat) (l : List Passenger) : Nat :=
  (ids.filter (fun i => (l.getD i dummyPassenger).had_ride)).length

/-- Between rounds, `rides_this_round` equals the number of passengers
whose `had_ride` flag is set. -/
def ridesInvariant (s : ModelState) : Prop :=
  s.company.rides_this_round = countHadRide s.passengers

/-- The `had_ride` flag of passenger `k`. -/
def hadAt (s : ModelState) (k : Nat) : Bool :=
  (s.passengers.getD k dummyPassenger).had_ride

/-! ### Unfolding lemmas for `allocate_budget` -/

theorem ratFloor_eq_intFloor (q : Rat) : Rat.floor q = ⌊q⌋ := by
  rw [Rat.floor_def', Rat.floor_def]

theorem pb_def (s : ModelState) :
    (allocate_budget s).passenger_budget =
      if total_failure_rate s = 0 then 0
      else
        min (s.company.funding / 2 *
            (failure_rate_passenger s / total_failure_rate s))
          (((inactivePassengerIdx s).length : Rat) * s.cfg.passenger_cac) :=
  rfl

theorem db_def (s : ModelState) :
    (allocate_budget s).driver_budget =
      if total_failure_rate s = 0 then 0
      else
        min (s.company.funding / 2 *
            (1 - failure_rate_passenger s / total_failure_rate s))
          (((inactiveDriverIdx s).length : Rat) * s.cfg.driver_cac) :=
  rfl

theorem nP_def (s : ModelState) :
    (allocate_budget s).num_passengers_to_market =
      min ((inactivePassengerIdx s).length : Int)
        (Rat.floor
          ((allocate_budget s).passenger_budget / s.cfg.passenger_cac)) :=
  rfl

theorem nD_def (s : ModelState) :
    (allocate_budget s).num_drivers_to_market =
      min ((inactiveDriverIdx s).length : Int)
        (Rat.floor ((allocate_budget s).driver_budget / s.cfg.driver_cac)) :=
  rfl

theorem frp_nonneg (s : ModelState) : 0 ≤ failure_rate_passenger s :=
  div_nonneg (Nat.cast_nonneg _) (Nat.cast_nonneg _)

theorem frd_nonneg (s : ModelState) : 0 ≤ failure_rate_driver s :=
  div_nonneg (Nat.cast_nonneg _) (Nat.cast_nonneg _)

theorem tfr_nonneg (s : ModelState) : 0 ≤ total_failure_rate s :=
  add_nonneg (frp_nonneg s) (frd_nonneg s)

theorem share_nonneg (s : ModelState) :
    0 ≤ failure_rate_passenger s / total_failure_rate s :=
  div_nonneg (frp_nonneg s) (tfr_nonneg s)

theorem share_le_one (s : ModelState) (h : total_failure_rate s ≠ 0) :
    failure_rate_passenger s / total_failure_rate s ≤ 1 := by
  have htpos : 0 < total_failure_rate s :=
    lt_of_le_of_ne (tfr_nonneg s) (Ne.symm h)
  rw [div_le_one htpos]
  exact le_add_of_nonneg_right (frd_nonneg s)

theorem pb_nonneg (s : ModelState) (h : 0 ≤ s.company.funding)
    (hp : 0 ≤ s.cfg.passenger_cac) :
    0 ≤ (allocate_budget s).passenger_budget := by
  rw [pb_def]
  split
  · exact le_refl 0
  · exact le_min
      (mul_nonneg (div_nonneg h (by norm_num)) (share_nonneg s))
      (mul_nonneg (Nat.cast_nonneg _) hp)

theorem db_nonneg (s : ModelState) (h : 0 ≤ s.company.funding)
    (hd : 0 ≤ s.cfg.driver_cac) :
    0 ≤ (allocate_budget s).driver_budget := by
  rw [db_def]
  split
  · exact le_refl 0
  · next hne =>
    exact le_min
      (mul_nonneg (div_nonneg h (by norm_num))
        (by linarith [share_le_one s hne]))
      (mul_nonneg (Nat.cast_nonneg _) hd)

theorem pb_le_cap (s : ModelState) (hp : 0 ≤ s.cfg.passenger_cac) :
    (allocate_budget s).passenger_budget ≤
      ((inactivePassengerIdx s).length : Rat) * s.cfg.passenger_cac := by
  rw [pb_def]
  split
  · exact mul_nonneg (Nat.cast_nonneg _) hp
  · exact min_le_right _ _

theorem db_le_cap (s : ModelState) (hd : 0 ≤ s.cfg.driver_cac) :
    (allocate_budget s).driver_budget ≤
      ((inactiveDriverIdx s).length : Rat) * s.cfg.driver_cac := by
  rw [db_def]
  split
  · exact mul_nonneg (Nat.cast_nonneg _) hd
  · exact min_le_right _ _

theorem sum_le_half (s : ModelState) (h : 0 ≤ s.company.funding) :
    (allocate_budget s).passenger_budget + (allocate_budget s).driver_budget ≤
      s.company.funding / 2 := by
  rw [pb_def, db_def]
  split
  · simpa using div_nonneg h (by norm_num)
  · have h1 := min_le_left
      (s.company.funding / 2 *
        (failure_rate_passenger s / total_failure_rate s))
      (((inactivePassengerIdx s).length : Rat) * s.cfg.passenger_cac)
    have h2 := min_le_left
      (s.company.funding / 2 *
        (1 - failure_rate_passenger s / total_failure_rate s))
      (((inactiveDriverIdx s).length : Rat) * s.cfg.driver_cac)
    have hring : s.company.funding / 2 *
          (failure_rate_passenger s / total_failure_rate s) +
        s.company.funding / 2 *
          (1 - failure_rate_passenger s / total_failure_rate s) =
        s.company.funding / 2 := by ring
    linarith

theorem sum_nonneg_alloc (s : ModelState) (h : 0 ≤ s.company.funding)
    (hp : 0 ≤ s.cfg.passenger_cac) (hd : 0 ≤ s.cfg.driver_cac) :
    0 ≤ (allocate_budget s).passenger_budget +
      (allocate_budget s).driver_budget :=
  add_nonneg (pb_nonneg s h hp) (db_nonneg s h hd)

theorem nP_nonneg (s : ModelState) (h : 0 ≤ s.company.funding)
    (hp : 0 < s.cfg.passenger_cac) :
    0 ≤ (allocate_budget s).num_passengers_to_market := by
  rw [nP_def]
  refine le_min (Int.natCast_nonneg _) (Rat.le_floor.mpr ?_)
  push_cast
  exact div_nonneg (pb_nonneg s h hp.le) hp.le

theorem nD_nonneg (s : ModelState) (h : 0 ≤ s.company.funding)
    (hd : 0 < s.cfg.driver_cac) :
    0 ≤ (allocate_budget s).num_drivers_to_market := by
  rw [nD_def]
  refine le_min (Int.natCast_nonneg _) (Rat.le_floor.mpr ?_)
  push_cast
  exact div_nonneg (db_nonneg s h hd.le) hd.le

/-! ### Preservation of the financial state through the round's phases -/

theorem finView_cfg {s t : ModelState} (h : finView s = finView t) :
    s.cfg = t.cfg := congrArg Prod.fst h

theorem finView_funding {s t : ModelState} (h : finView s = finView t) :
    s.company.funding = t.company.funding :=
  congrArg (fun x => x.2.1) h

theorem finView_spending {s t : ModelState} (h : finView s = finView t) :
    s.company.spending = t.company.spending :=
  congrArg (fun x => x.2.2.1) h

theorem finView_revenue {s t : ModelState} (h : finView s = finView t) :
    s.company.revenue = t.company.revenue :=
  congrArg (fun x => x.2.2.2.1) h

theorem finView_revenue_history {s t : ModelState}
    (h : finView s = finView t) :
    s.company.revenue_history = t.company.revenue_history :=
  congrArg (fun x => x.2.2.2.2.1) h

theorem finView_cash_history {s t : ModelState}
    (h : finView s = finView t) :
    s.company.cash_history = t.company.cash_history :=
  congrArg (fun x => x.2.2.2.2.2.1) h

theorem finView_stats {s t : ModelState} (h : finView s = finView t) :
    s.stats = t.stats :=
  congrArg (fun x => x.2.2.2.2.2.2) h

theorem finView_check_for_driver (i : Nat) (s : ModelState) :
    finView (check_for_driver i s) = finView s := by
  unfold check_for_driver
  cases hg : s.passengers.get? i
  · rfl
  · simp only
    split
    · rfl
    · rfl

theorem finView_passengerStep (i : Nat) (s : ModelState) :
    finView (passengerStep i s) = finView s := by
  unfold passengerStep
  cases hg : s.passengers.get? i
  · rfl
  · simp only
    split
    · exact finView_check_for_driver i _
    · rfl

theorem finView_driverStep (j : Nat) (s : ModelState) :
    finView (driverStep j s) = finView s := by
  unfold driverStep
  cases hg : s.drivers.get? j
  · rfl
  · rfl

theorem finView_stepAgentById (id : Nat) (s : ModelState) :
    finView (stepAgentById id s) = finView s := by
  unfold stepAgentById
  split
  · exact finView_passengerStep id s
  · exact finView_driverStep _ s

theorem finView_foldSteps (order : List Nat) (s : ModelState) :
    finView (foldSteps order s) = finView s := by
  induction order generalizing s with
  | nil => rfl
  | cons a rest ih =>
    exact (ih (stepAgentById a s)).trans (finView_stepAgentById a s)

theorem finView_schedulePhase (s : ModelState) :
    finView (schedulePhase s) = finView s :=
  finView_foldSteps _ _

theorem finView_churnAgentById (id : Nat) (s : ModelState) :
    finView (churnAgentById id s) = finView s := by
  unfold churnAgentById
  split
  · dsimp only
    split
    · split
      · rfl
      · rfl
    · rfl
  · dsimp only
    split
    · split
      · split
        · rfl
        · rfl
      · rfl
    · rfl

theorem finView_churnPhase (s : ModelState) :
    finView (churnPhase s) = finView s := by
  unfold churnPhase
  generalize List.range (s.passengers.length + s.drivers.length) = order
  induction order generalizing s with
  | nil => rfl
  | cons a rest ih =>
    exact (ih (churnAgentById a s)).trans (finView_churnAgentById a s)

theorem stats_company (s : ModelState) :
    (calculate_statistics s).company =
      { s.company with budget_previous_step := s.company.funding } := rfl

theorem stats_stats (s : ModelState) :
    (calculate_statistics s).stats = s.stats ++ [statsRowOf s] := rfl

theorem stats_passengers (s : ModelState) :
    (calculate_statistics s).passengers = s.passengers := rfl

theorem companyStep_funding (s : ModelState) :
    (companyStep s).company.funding =
      s.company.funding + (companyStep s).company.revenue -
        (companyStep s).company.spending := rfl

theorem companyStep_spending (s : ModelState) :
    (companyStep s).company.spending =
      (allocate_budget s).passenger_budget +
        (allocate_budget s).driver_budget := rfl

theorem companyStep_revenue (s : ModelState) :
    (companyStep s).company.revenue =
      s.cfg.profit_per_ride * (s.company.rides_this_round : Rat) := rfl

theorem companyStep_revenue_history (s : ModelState) :
    (companyStep s).company.revenue_history =
      s.company.revenue_history ++ [(companyStep s).company.revenue] := rfl

theorem companyStep_cash_history (s : ModelState) :
    (companyStep s).company.cash_history =
      s.company.cash_history ++ [(companyStep s).company.funding] := rfl

theorem companyStep_rides (s : ModelState) :
    (companyStep s).company.rides_this_round = 0 := rfl

theorem companyStep_stats (s : ModelState) :
    (companyStep s).stats = s.stats := rfl

theorem companyStep_cfg (s : ModelState) : (companyStep s).cfg = s.cfg :=
  rfl

theorem modelStep_not_running (s : ModelState) (h : s.running = false) :
    modelStep s = s := by
  simp [modelStep, h]

theorem modelStep_running (s : ModelState) (h : s.running = true) :
    modelStep s =
      churnPhase (calculate_statistics (schedulePhase (companyStep s))) := by
  simp [modelStep, h]

/-! ### The shuffled processing order is a permutation of the agent ids -/

theorem getElem_cons_eraseIdx_perm {l : List Nat} {i : Nat}
    (h : i < l.length) : l.Perm (l[i] :: l.eraseIdx i) :=
  (List.perm_cons_erase (List.getElem_mem h)).trans
    (List.Perm.cons _ (List.erase_getElem h))

theorem fyAux_perm :
    ∀ (fuel : Nat) (g : Rng) (l : List Nat),
      l.length ≤ fuel → (fyAux fuel g l).1.Perm l
  | 0, g, l, h => by
    have hl : l = [] := List.eq_nil_of_length_eq_zero (Nat.le_zero.mp h)
    subst hl
    exact List.Perm.refl _
  | fuel + 1, g, l, h => by
    unfold fyAux
    by_cases he : l.isEmpty
    · rw [List.isEmpty_iff.mp he]
      simp
    · rw [if_neg he]
      have hne : l ≠ [] := by simpa [List.isEmpty_iff] using he
      have hpos : 0 < l.length := List.length_pos.mpr hne
      have hi : (randIdx g l.length).1 < l.length := by
        simp only [randIdx]
        exact Nat.mod_lt _ hpos
      have hlen : (l.eraseIdx (randIdx g l.length).1).length ≤ fuel := by
        rw [List.length_eraseIdx]
        rw [if_pos hi]
        omega
      have ih := fyAux_perm fuel (randIdx g l.length).2
        (l.eraseIdx (randIdx g l.length).1) hlen
      dsimp only
      rw [List.getD_eq_getElem _ _ hi]
      exact (ih.cons _).trans (getElem_cons_eraseIdx_perm hi).symm

theorem drawOrder_perm (g : Rng) (l : List Nat) :
    (drawOrder g l).1.Perm l :=
  fyAux_perm l.length g l le_rfl

/-! ### Counting `had_ride` flags -/

theorem countHadRideOn_perm {ids ids' : List Nat} (h : ids.Perm ids')
    (l : List Passenger) : countHadRideOn ids l = countHadRideOn ids' l :=
  (h.filter _).length_eq

theorem filter_range_add (a b : Nat) :
    (List.range (a + b)).filter (fun i => decide (i < a)) = List.range a := by
  rw [List.range_add, List.filter_append]
  have h1 : (List.range a).filter (fun i => decide (i < a)) =
      List.range a :=
    List.filter_eq_self.mpr fun x hx => by
      simpa using List.mem_range.mp hx
  have h2 : ((List.range b).map (fun x => a + x)).filter
      (fun i => decide (i < a)) = [] := by
    rw [List.filter_eq_nil_iff]
    intro x hx
    obtain ⟨y, _, rfl⟩ := List.mem_map.mp hx
    simp
  rw [h1, h2, List.append_nil]

theorem countHadRideOn_range (l : List Passenger) :
    countHadRideOn (List.range l.length) l = countHadRide l := by
  induction l with
  | nil => rfl
  | cons p l' ih =>
    unfold countHadRideOn countHadRide at ih ⊢
    rw [List.length_cons, List.range_succ_eq_map, List.filter_cons,
      List.filter_map,
      show ((fun i => ((p :: l').getD i dummyPassenger).had_ride) ∘
          Nat.succ) =
        (fun i => (l'.getD i dummyPassenger).had_ride) from rfl]
    by_cases hp : p.had_ride <;>
      simp [List.getD_cons_zero, hp, List.length_map] <;>
      simpa [List.getD_eq_getElem?_getD] using ih

theorem getD_set_self (l : List Passenger) (i : Nat) (a : Passenger)
    (h : i < l.length) : (l.set i a).getD i dummyPassenger = a := by
  rw [List.getD_eq_getElem?_getD, List.getElem?_set_self h]
  rfl

theorem getD_set_ne (l : List Passenger) {i k : Nat} (a : Passenger)
    (h : i ≠ k) :
    (l.set i a).getD k dummyPassenger = l.getD k dummyPassenger := by
  rw [List.getD_eq_getElem?_getD, List.getElem?_set_ne h,
    ← List.getD_eq_getElem?_getD]

theorem countHadRide_set (l : List Passenger) (i : Nat) (a : Passenger)
    (h : a.had_ride = (l.getD i dummyPassenger).had_ride) :
    countHadRide (l.set i a) = countHadRide l := by
  induction l generalizing i with
  | nil => rfl
  | cons p l' ih =>
    cases i with
    | zero =>
      unfold countHadRide
      rw [List.set_cons_zero, List.filter_cons, List.filter_cons]
      rw [List.getD_cons_zero] at h
      rw [h]
      split <;> simp
    | succ i =>
      unfold countHadRide at ih ⊢
      rw [List.set_cons_succ, List.filter_cons, List.filter_cons]
      rw [List.getD_cons_succ] at h
      split <;> simp [ih i h]

/-! ### One agent phase establishes `rides_this_round = countHadRide` -/

theorem check_effects (i : Nat) (s : ModelState) (p : Passenger)
    (hg : s.passengers.get? i = some p) (hi : i < s.passengers.length) :
    (check_for_driver i s).passengers.length = s.passengers.length ∧
      (check_for_driver i s = s ∨
        ((check_for_driver i s).company.rides_this_round =
            s.company.rides_this_round + 1 ∧
          hadAt (check_for_driver i s) i = true)) ∧
      ∀ k, k ≠ i → hadAt (check_for_driver i s) k = hadAt s k := by
  unfold check_for_driver
  rw [hg]
  dsimp only
  split
  · exact ⟨rfl, Or.inl rfl, fun k _ => rfl⟩
  · refine ⟨by simp [List.length_set], Or.inr ⟨rfl, ?_⟩, ?_⟩
    · unfold hadAt
      dsimp only
      rw [getD_set_self _ _ _ hi]
    · intro k hk
      unfold hadAt
      dsimp only
      rw [getD_set_ne _ _ (Ne.symm hk)]

theorem passengerStep_oob (i : Nat) (s : ModelState)
    (h : s.passengers.length ≤ i) : passengerStep i s = s := by
  unfold passengerStep
  rw [List.get?_eq_getElem?, List.getElem?_eq_none h]

theorem driverStep_passengers (j : Nat) (s : ModelState) :
    (driverStep j s).passengers = s.passengers ∧
      (driverStep j s).company = s.company := by
  unfold driverStep
  cases hg : s.drivers.get? j
  · exact ⟨rfl, rfl⟩
  · exact ⟨rfl, rfl⟩

theorem postMove_effects (i : Nat) (s : ModelState) (p2 : Passenger)
    (g : Rng) (t : ModelState)
    (ht : t =
      if p2.app_on && !p2.had_ride then
        check_for_driver i
          { s with passengers := s.passengers.set i p2, rng := g }
      else { s with passengers := s.passengers.set i p2, rng := g })
    (hr : p2.had_ride = false) (hi : i < s.passengers.length) :
    t.passengers.length = s.passengers.length ∧
      t.company.rides_this_round =
        s.company.rides_this_round + (if hadAt t i then 1 else 0) ∧
      ∀ k, k ≠ i → hadAt t k = hadAt s k := by
  have hset : ∀ k, k ≠ i →
      hadAt { s with passengers := s.passengers.set i p2, rng := g } k =
        hadAt s k := by
    intro k hk
    unfold hadAt
    dsimp only
    rw [getD_set_ne _ _ (Ne.symm hk)]
  have hself :
      hadAt { s with passengers := s.passengers.set i p2, rng := g } i =
        false := by
    unfold hadAt
    dsimp only
    rw [getD_set_self _ _ _ hi]
    exact hr
  subst ht
  split
  · have hi1 : i <
        ({ s with passengers := s.passengers.set i p2, rng := g } :
          ModelState).passengers.length := by
      dsimp only
      rw [List.length_set]
      exact hi
    have hg1 :
        ({ s with passengers := s.passengers.set i p2, rng := g } :
          ModelState).passengers.get? i = some p2 := by
      dsimp only
      rw [List.get?_eq_getElem?]
      exact List.getElem?_set_self hi
    obtain ⟨hclen, hcor, hcflags⟩ := check_effects i
      { s with passengers := s.passengers.set i p2, rng := g } p2 hg1 hi1
    refine ⟨by rw [hclen]; dsimp only; rw [List.length_set], ?_, ?_⟩
    · rcases hcor with hceq | ⟨hcr, hcflag⟩
      · rw [hceq, hself]
        simp
      · rw [hcr, hcflag]
        simp
    · intro k hk
      rw [hcflags k hk]
      exact hset k hk
  · refine ⟨by dsimp only; rw [List.length_set], ?_, hset⟩
    rw [hself]
    simp

theorem passengerStep_rides (i : Nat) (s : ModelState)
    (hi : i < s.passengers.length) :
    (passengerStep i s).passengers.length = s.passengers.length ∧
      (passengerStep i s).company.rides_this_round =
        s.company.rides_this_round +
          (if hadAt (passengerStep i s) i then 1 else 0) ∧
      ∀ k, k ≠ i → hadAt (passengerStep i s) k = hadAt s k := by
  unfold passengerStep
  rw [List.get?_eq_getElem?, List.getElem?_eq_getElem hi]
  dsimp only
  exact postMove_effects i s
    { s.passengers[i] with
      had_ride := false
      pos := (moveDraw s s.passengers[i].pos).1 }
    (moveDraw s s.passengers[i].pos).2 _ rfl rfl hi

theorem foldSteps_rides (order : List Nat) (s : ModelState)
    (hnd : order.Nodup) :
    (foldSteps order s).passengers.length = s.passengers.length ∧
      (foldSteps order s).company.rides_this_round =
        s.company.rides_this_round +
          countHadRideOn
            (order.filter (fun id => decide (id < s.passengers.length)))
            (foldSteps order s).passengers ∧
      ∀ k, k ∉ order → hadAt (foldSteps order s) k = hadAt s k := by
  induction order generalizing s with
  | nil =>
    refine ⟨rfl, ?_, fun k _ => rfl⟩
    simp [foldSteps, countHadRideOn]
  | cons a rest ih =>
    obtain ⟨hna, hnd'⟩ := List.nodup_cons.mp hnd
    have hfold : foldSteps (a :: rest) s =
        foldSteps rest (stepAgentById a s) := rfl
    obtain ⟨hlenF, hridesF, hflagsF⟩ := ih (stepAgentById a s) hnd'
    by_cases ha : a < s.passengers.length
    · have hdisp : stepAgentById a s = passengerStep a s := by
        unfold stepAgentById
        rw [if_pos ha]
      obtain ⟨hlen1, hrides1, hflags1⟩ := passengerStep_rides a s ha
      rw [hdisp] at hlenF hridesF hflagsF
      refine ⟨?_, ?_, ?_⟩
      · rw [hfold, hdisp, hlenF, hlen1]
      · rw [hfold, hdisp, hridesF, hrides1]
        simp only [hlen1]
        rw [List.filter_cons, if_pos (decide_eq_true ha)]
        unfold countHadRideOn
        rw [List.filter_cons]
        have hfa : hadAt (foldSteps rest (passengerStep a s)) a =
            hadAt (passengerStep a s) a := hflagsF a hna
        have hpred :
            ((foldSteps rest (passengerStep a s)).passengers.getD a
              dummyPassenger).had_ride = hadAt (passengerStep a s) a :=
          hfa
        rw [hpred]
        cases hval : hadAt (passengerStep a s) a <;>
          simp [hval] <;> omega
      · intro k hk
        have hk1 : k ≠ a := fun he => hk (he ▸ List.mem_cons_self a rest)
        have hk2 : k ∉ rest := fun hm => hk (List.mem_cons_of_mem _ hm)
        rw [hfold, hdisp, hflagsF k hk2, hflags1 k hk1]
    · have hdisp : stepAgentById a s =
          driverStep (a - s.passengers.length) s := by
        unfold stepAgentById
        rw [if_neg ha]
      have hdp := driverStep_passengers (a - s.passengers.length) s
      rw [hdisp] at hlenF hridesF hflagsF
      refine ⟨?_, ?_, ?_⟩
      · rw [hfold, hdisp, hlenF, hdp.1]
      · rw [hfold, hdisp, hridesF]
        simp only [hdp.1, hdp.2]
        rw [List.filter_cons]
        rw [decide_eq_false ha]
        simp
      · intro k hk
        have hk2 : k ∉ rest := fun hm => hk (List.mem_cons_of_mem _ hm)
        rw [hfold, hdisp, hflagsF k hk2]
        unfold hadAt
        rw [hdp.1]

theorem schedulePhase_rides (s : ModelState) :
    (schedulePhase s).passengers.length = s.passengers.length ∧
      (schedulePhase s).company.rides_this_round =
        s.company.rides_this_round +
          countHadRide (schedulePhase s).passengers := by
  have hperm := drawOrder_perm s.rng
    (List.range (s.passengers.length + s.drivers.length))
  have hnd : (drawOrder s.rng
      (List.range (s.passengers.length + s.drivers.length))).1.Nodup :=
    hperm.symm.nodup (List.nodup_range _)
  obtain ⟨hlen, hrides, _⟩ := foldSteps_rides
    (drawOrder s.rng (List.range (s.passengers.length + s.drivers.length))).1
    { s with rng := (drawOrder s.rng
        (List.range (s.passengers.length + s.drivers.length))).2 } hnd
  refine ⟨hlen, ?_⟩
  refine hrides.trans ?_
  congr 1
  rw [countHadRideOn_perm (hperm.filter _)]
  rw [show (fun id => decide (id <
      ({ s with rng := (drawOrder s.rng (List.range (s.passengers.length +
        s.drivers.length))).2 } : ModelState).passengers.length)) =
    (fun id => decide (id < s.passengers.length)) from rfl]
  rw [filter_range_add]
  have hrange := countHadRideOn_range
    (foldSteps (drawOrder s.rng
      (List.range (s.passengers.length + s.drivers.length))).1
      { s with rng := (drawOrder s.rng
        (List.range (s.passengers.length + s.drivers.length))).2
      }).passengers
  rw [hlen] at hrange
  exact hrange

/-! ### Churn and statistics do not touch the flags or the counter -/

theorem churnAgent_company (id : Nat) (s : ModelState) :
    (churnAgentById id s).company = s.company := by
  unfold churnAgentById
  split
  · dsimp only
    split
    · split
      · rfl
      · rfl
    · rfl
  · dsimp only
    split
    · split
      · split
        · rfl
        · rfl
      · rfl
    · rfl

theorem churnAgent_countHadRide (id : Nat) (s : ModelState) :
    countHadRide (churnAgentById id s).passengers =
      countHadRide s.passengers := by
  unfold churnAgentById
  split
  · dsimp only
    split
    · split
      · exact countHadRide_set _ _ _ rfl
      · rfl
    · rfl
  · dsimp only
    split
    · split
      · split
        · rfl
        · rfl
      · rfl
    · rfl

theorem churnPhase_company (s : ModelState) :
    (churnPhase s).company = s.company := by
  unfold churnPhase
  generalize List.range (s.passengers.length + s.drivers.length) = order
  induction order generalizing s with
  | nil => rfl
  | cons a rest ih =>
    exact (ih (churnAgentById a s)).trans (churnAgent_company a s)

theorem churnPhase_countHadRide (s : ModelState) :
    countHadRide (churnPhase s).passengers = countHadRide s.passengers := by
  unfold churnPhase
  generalize List.range (s.passengers.length + s.drivers.length) = order
  induction order generalizing s with
  | nil => rfl
  | cons a rest ih =>
    exact (ih (churnAgentById a s)).trans (churnAgent_countHadRide a s)

/-! ### Small concrete states used by witnesses and counterexamples -/

/-- A plain one-passenger one-driver state with the given cash history. -/
def mkSimpleState (hist : List Rat) : ModelState :=
  { cfg :=
      { num_passengers := 1
        num_drivers := 1
        width := 2
        height := 2
        co_funding := 100
        profit_per_ride := 2
        passenger_cac := 1
        driver_cac := 1 }
    passengers := [⟨(0, 0), false, false⟩]
    drivers := [⟨(1, 1), false, false⟩]
    company :=
      { funding := 100
        revenue_history := []
        cash_history := hist
        budget_previous_step := 100
        revenue := 0
        rides_this_round := 0
        spending := 0
        pnl := 0 }
    running := true
    steps := 0
    rng := ⟨fun _ => 0, 0⟩
    grng := ⟨fun _ => 0, 0⟩
    stats := [] }

def sPlain : ModelState := mkSimpleState []

def sStop : ModelState := { mkSimpleState [] with running := false }

/-- Exactly 20 recorded rounds, most recent cash above the oldest of the
20. -/
def sHist20 : ModelState := mkSimpleState (List.replicate 19 0 ++ [1])

/-- 21 recorded rounds, most recent cash above the 20th-most-recent. -/
def sHist21 : ModelState := mkSimpleState (List.replicate 20 0 ++ [1])

/-- Every agent matched last round (`total_failure_rate = 0`). -/
def sMatched : ModelState :=
  { mkSimpleState [] with
    passengers := [⟨(0, 0), true, true⟩]
    drivers := [⟨(1, 1), true, true⟩] }

/-- One active passenger at the origin with one active driver in its
search window. -/
def sWindow : ModelState :=
  { mkSimpleState [] with
    passengers := [⟨(0, 0), true, false⟩]
    drivers := [⟨(1, 1), true, false⟩] }

def pWindow : Passenger := ⟨(0, 0), true, false⟩

/-! ### Claim theorems -/

/-- C4 counterexample: a reachable round (the third round of `runC4`,
which still executes since `running` is only cleared during its own
allocation) whose opening funding is negative while every agent matched
the previous round; the `total_failure_rate = 0` branch then assigns
`passenger_budget = driver_budget = 0`, and `0 > funding / 2`, so the
claimed cap `passenger_budget + driver_budget ≤ funding / 2` fails. -/
theorem c4_counterexample :
    (runC4 2).running = true ∧
      total_failure_rate (runC4 2) = 0 ∧
      (runC4 2).company.funding < 0 ∧
      (allocate_budget (runC4 2)).passenger_budget = 0 ∧
      (allocate_budget (runC4 2)).driver_budget = 0 ∧
      ¬((allocate_budget (runC4 2)).passenger_budget +
          (allocate_budget (runC4 2)).driver_budget ≤
        (runC4 2).company.funding / 2) := by
  have hf : (runC4 2).company.funding = -975 := by
    with_unfolding_all rfl
  have hpb : (allocate_budget (runC4 2)).passenger_budget = 0 := by
    with_unfolding_all rfl
  have hdb : (allocate_budget (runC4 2)).driver_budget = 0 := by
    with_unfolding_all rfl
  refine ⟨by with_unfolding_all rfl, by with_unfolding_all rfl, ?_, hpb,
    hdb, ?_⟩
  · rw [hf]
    decide
  · rw [hf, hpb, hdb]
    norm_num

/-- C4 (amended): in every round, the computed `passenger_budget` is at
most `inactive_passenger_count × passenger_cac` (symmetrically for
drivers); `passenger_budget + driver_budget` is at most half the
Company's funding at the start of the round's allocation whenever that
funding is nonnegative — which is every round when `profit_per_ride ≥ 0`,
but not in general: see `c4_counterexample`. -/
theorem c4_budget_caps (s : ModelState) (hp : 0 < s.cfg.passenger_cac)
    (hd : 0 < s.cfg.driver_cac) :
    (allocate_budget s).passenger_budget ≤
        ((inactivePassengerIdx s).length : Rat) * s.cfg.passenger_cac ∧
      (allocate_budget s).driver_budget ≤
        ((inactiveDriverIdx s).length : Rat) * s.cfg.driver_cac ∧
      (0 ≤ s.company.funding →
        (allocate_budget s).passenger_budget +
            (allocate_budget s).driver_budget ≤
          s.company.funding / 2) :=
  ⟨pb_le_cap s hp.le, db_le_cap s hd.le, fun h => sum_le_half s h⟩

/-- Witness for the amended C4 at a concrete state, with the inner
nonnegative-funding hypothesis discharged as well. -/
theorem c4_budget_caps_witness :
    (0 < sPlain.cfg.passenger_cac ∧ 0 < sPlain.cfg.driver_cac ∧
        0 ≤ sPlain.company.funding) ∧
      ((allocate_budget sPlain).passenger_budget ≤
          ((inactivePassengerIdx sPlain).length : Rat) *
            sPlain.cfg.passenger_cac ∧
        (allocate_budget sPlain).driver_budget ≤
          ((inactiveDriverIdx sPlain).length : Rat) * sPlain.cfg.driver_cac ∧
        (allocate_budget sPlain).passenger_budget +
            (allocate_budget sPlain).driver_budget ≤
          sPlain.company.funding / 2) :=
  ⟨⟨by decide, by decide, by decide⟩,
    ⟨(c4_budget_caps sPlain (by decide) (by decide)).1,
      (c4_budget_caps sPlain (by decide) (by decide)).2.1,
      (c4_budget_caps sPlain (by decide) (by decide)).2.2 (by decide)⟩⟩

/-- C5: once `running` is false, further `RideshareModel.step` calls leave
the whole state unchanged, so no round executes and the cash and revenue
histories stop growing. -/
theorem c5_monotonic_stop (s : ModelState) (h : s.running = false)
    (n : Nat) :
    modelStep^[n] s = s ∧
      (modelStep^[n] s).company.cash_history = s.company.cash_history ∧
      (modelStep^[n] s).company.revenue_history =
        s.company.revenue_history := by
  have hfix : modelStep^[n] s = s :=
    Function.iterate_fixed (by simp [modelStep, h]) n
  exact ⟨hfix, by rw [hfix], by rw [hfix]⟩

/-- Witness for C5 at a concrete stopped state. -/
theorem c5_monotonic_stop_witness :
    sStop.running = false ∧
      (modelStep^[3] sStop = sStop ∧
        (modelStep^[3] sStop).company.cash_history =
          sStop.company.cash_history ∧
        (modelStep^[3] sStop).company.revenue_history =
          sStop.company.revenue_history) :=
  ⟨rfl, c5_monotonic_stop sStop rfl 3⟩

/-- C7: when the computed `total_failure_rate` is exactly 0, the round's
`passenger_budget` and `driver_budget` are both exactly 0 (the division by
the zero total is syntactically guarded by this branch). -/
theorem c7_zero_total_failure (s : ModelState)
    (h : total_failure_rate s = 0) :
    (allocate_budget s).passenger_budget = 0 ∧
      (allocate_budget s).driver_budget = 0 := by
  rw [pb_def, db_def]
  simp [h]

/-- Witness for C7: a state in which every agent matched last round. -/
theorem c7_zero_total_failure_witness :
    total_failure_rate sMatched = 0 ∧
      ((allocate_budget sMatched).passenger_budget = 0 ∧
        (allocate_budget sMatched).driver_budget = 0) :=
  ⟨by with_unfolding_all rfl,
    c7_zero_total_failure sMatched (by with_unfolding_all rfl)⟩

/-- C3 counterexample: with exactly 20 recorded rounds and the most recent
cash value above the value from 20 rounds prior (the oldest of the 20),
the claim demands a stop, but `allocate_budget` leaves `running` true
because the code requires `len(cash_history) > 20`. -/
theorem c3_counterexample :
    20 ≤ sHist20.company.cash_history.length ∧
      sHist20.company.cash_history.getD
          (sHist20.company.cash_history.length - 20) 0 <
        sHist20.company.cash_history.getD
          (sHist20.company.cash_history.length - 1) 0 ∧
      sHist20.running = true ∧
      (allocate_budget sHist20).running = true :=
  ⟨by decide, by with_unfolding_all decide, rfl, by with_unfolding_all rfl⟩

/-- C3 (amended): when none of the funding guards fires, the run is
stopped by `allocate_budget` exactly when more than 20 rounds of
`cash_history` exist and the most recent cash value exceeds the
20th-most-recent one. -/
theorem c3_sustainability_stop (s : ModelState) (hrun : s.running = true)
    (hmin : min s.cfg.passenger_cac s.cfg.driver_cac ≤ s.company.funding)
    (h0 : 0 ≤ s.company.funding) (hp : 0 ≤ s.cfg.passenger_cac)
    (hd : 0 ≤ s.cfg.driver_cac) :
    ((allocate_budget s).running = false ↔
      (s.company.cash_history.length > 20 ∧
        s.company.cash_history.getD (s.company.cash_history.length - 1) 0 >
          s.company.cash_history.getD
            (s.company.cash_history.length - 20) 0)) := by
  have hsum := sum_nonneg_alloc s h0 hp hd
  rw [pb_def, db_def] at hsum
  simp only [allocate_budget]
  rw [if_neg (not_lt.mpr hmin), if_neg (not_lt.mpr h0), hrun,
    if_neg (not_lt.mpr hsum)]
  by_cases hc :
      s.company.cash_history.length > 20 ∧
        s.company.cash_history.getD (s.company.cash_history.length - 1) 0 >
          s.company.cash_history.getD
            (s.company.cash_history.length - 20) 0
  · simp [hc]
  · simp [hc]

/-- C8: on an invocation of the Matching Engine for an active passenger,
if no active driver lies in the clipped square search window the state is
unchanged (so `had_ride` stays false); otherwise exactly one candidate
driver is chosen, the passenger's `had_ride` and the chosen driver's
`had_passenger` become true, both get `app_on = true`, and
`rides_this_round` grows by exactly 1. -/
theorem c8_matching_engine (s : ModelState) (i : Nat) (p : Passenger)
    (hp : s.passengers.get? i = some p) (happ : p.app_on = true) :
    (candidateDrivers s p.pos = [] → check_for_driver i s = s) ∧
      (candidateDrivers s p.pos ≠ [] →
        (candidateDrivers s p.pos).getD
            ((randIdx s.grng (candidateDrivers s p.pos).length).1) 0 ∈
          candidateDrivers s p.pos ∧
        check_for_driver i s =
          { s with
            passengers :=
              s.passengers.set i { p with had_ride := true, app_on := true }
            drivers :=
              s.drivers.set
                ((candidateDrivers s p.pos).getD
                  ((randIdx s.grng (candidateDrivers s p.pos).length).1) 0)
                { s.drivers.getD
                    ((candidateDrivers s p.pos).getD
                      ((randIdx s.grng
                        (candidateDrivers s p.pos).length).1) 0)
                    dummyDriver with
                  had_passenger := true, app_on := true }
            grng := (randIdx s.grng (candidateDrivers s p.pos).length).2
            company :=
              { s.company with
                rides_this_round := s.company.rides_this_round + 1 } }) := by
  constructor
  · intro hc
    unfold check_for_driver
    rw [hp]
    simp [hc]
  · intro hc
    have hlen : 0 < (candidateDrivers s p.pos).length :=
      List.length_pos.mpr hc
    have hlt : (randIdx s.grng (candidateDrivers s p.pos).length).1 <
        (candidateDrivers s p.pos).length := by
      simp only [randIdx]
      exact Nat.mod_lt _ hlen
    refine ⟨?_, ?_⟩
    · rw [List.getD_eq_getElem _ _ hlt]
      exact List.getElem_mem hlt
    · unfold check_for_driver
      rw [hp]
      simp [List.isEmpty_iff, hc]

/-- Witness for C8 at a concrete one-passenger one-driver state with the
driver inside the window. -/
theorem c8_matching_engine_witness :
    (sWindow.passengers.get? 0 = some pWindow ∧ pWindow.app_on = true) ∧
      ((candidateDrivers sWindow pWindow.pos = [] →
          check_for_driver 0 sWindow = sWindow) ∧
        (candidateDrivers sWindow pWindow.pos ≠ [] →
          (candidateDrivers sWindow pWindow.pos).getD
              ((randIdx sWindow.grng
                (candidateDrivers sWindow pWindow.pos).length).1) 0 ∈
            candidateDrivers sWindow pWindow.pos ∧
          check_for_driver 0 sWindow =
            { sWindow with
              passengers :=
                sWindow.passengers.set 0
                  { pWindow with had_ride := true, app_on := true }
              drivers :=
                sWindow.drivers.set
                  ((candidateDrivers sWindow pWindow.pos).getD
                    ((randIdx sWindow.grng
                      (candidateDrivers sWindow pWindow.pos).length).1) 0)
                  { sWindow.drivers.getD
                      ((candidateDrivers sWindow pWindow.pos).getD
                        ((randIdx sWindow.grng
                          (candidateDrivers sWindow pWindow.pos).length).1)
                        0)
                      dummyDriver with
                    had_passenger := true, app_on := true }
              grng := (randIdx sWindow.grng
                (candidateDrivers sWindow pWindow.pos).length).2
              company :=
                { sWindow.company with
                  rides_this_round :=
                    sWindow.company.rides_this_round + 1 } })) :=
  ⟨⟨rfl, rfl⟩, c8_matching_engine sWindow 0 pWindow rfl rfl⟩

set_option maxHeartbeats 1000000 in
/-- C6 (amended): every executed round appends exactly one statistics row,
whose cash column equals the Company's end-of-round funding minus the
round's spending; since the end-of-round funding already accounts for the
spending once (funding = opening funding + revenue - spending), the
published cash deducts the round's spend twice. -/
theorem c6_published_cash (s : ModelState) (h : s.running = true) :
    ∃ row : StatsRow,
      (modelStep s).stats = s.stats ++ [row] ∧
        row.cash =
          (modelStep s).company.funding - (modelStep s).company.spending ∧
        (modelStep s).company.funding =
          s.company.funding + (modelStep s).company.revenue -
            (modelStep s).company.spending := by
  rw [modelStep_running s h]
  have hc := finView_churnPhase
    (calculate_statistics (schedulePhase (companyStep s)))
  have hs := finView_schedulePhase (companyStep s)
  refine ⟨statsRowOf (schedulePhase (companyStep s)), ?_, ?_, ?_⟩
  · rw [finView_stats hc, stats_stats, finView_stats hs, companyStep_stats]
  · rw [finView_funding hc, finView_spending hc]
    rfl
  · rw [finView_funding hc, finView_spending hc, finView_revenue hc]
    rw [show (calculate_statistics
          (schedulePhase (companyStep s))).company.funding =
        (schedulePhase (companyStep s)).company.funding from rfl,
      show (calculate_statistics
          (schedulePhase (companyStep s))).company.spending =
        (schedulePhase (companyStep s)).company.spending from rfl,
      show (calculate_statistics
          (schedulePhase (companyStep s))).company.revenue =
        (schedulePhase (companyStep s)).company.revenue from rfl]
    rw [finView_funding hs, finView_spending hs, finView_revenue hs]
    exact companyStep_funding s

set_option maxHeartbeats 1000000 in
/-- Witness for the amended C6 at a concrete running state. -/
theorem c6_published_cash_witness :
    sPlain.running = true ∧
      ∃ row : StatsRow,
        (modelStep sPlain).stats = sPlain.stats ++ [row] ∧
          row.cash =
            (modelStep sPlain).company.funding -
              (modelStep sPlain).company.spending ∧
          (modelStep sPlain).company.funding =
            sPlain.company.funding + (modelStep sPlain).company.revenue -
              (modelStep sPlain).company.spending :=
  ⟨rfl, c6_published_cash sPlain rfl⟩

/-- One round keeps the funding nonnegative: the two budgets are capped at
half the funding and the revenue credit is nonnegative. -/
theorem funding_nonneg_modelStep (s : ModelState)
    (hπ : 0 ≤ s.cfg.profit_per_ride) (h : 0 ≤ s.company.funding) :
    0 ≤ (modelStep s).company.funding := by
  cases hr : s.running
  · rw [modelStep_not_running s hr]
    exact h
  · rw [modelStep_running s hr]
    have hc := finView_churnPhase
      (calculate_statistics (schedulePhase (companyStep s)))
    rw [finView_funding hc]
    rw [show (calculate_statistics
          (schedulePhase (companyStep s))).company.funding =
        (schedulePhase (companyStep s)).company.funding from rfl]
    rw [finView_funding (finView_schedulePhase (companyStep s))]
    rw [companyStep_funding s, companyStep_revenue s, companyStep_spending s]
    have hrev : 0 ≤ s.cfg.profit_per_ride *
        (s.company.rides_this_round : Rat) :=
      mul_nonneg hπ (Nat.cast_nonneg _)
    have hsum := sum_le_half s h
    linarith

/-- A round never changes the configuration. -/
theorem modelStep_cfg (s : ModelState) : (modelStep s).cfg = s.cfg := by
  cases hr : s.running
  · rw [modelStep_not_running s hr]
  · rw [modelStep_running s hr]
    rw [finView_cfg (finView_churnPhase
      (calculate_statistics (schedulePhase (companyStep s))))]
    rw [show (calculate_statistics (schedulePhase (companyStep s))).cfg =
        (schedulePhase (companyStep s)).cfg from rfl]
    rw [finView_cfg (finView_schedulePhase (companyStep s))]
    exact companyStep_cfg s

/-- C10: with a valid configuration (positive CACs, nonnegative profit per
ride and opening funding), the Company's funding stays nonnegative at
every reachable state, so the insolvency guard (`funding < 0`) and the
negative-combined-budget abort guard never fire. -/
theorem c10_funding_invariant (cfg : Config) (seed gseed : Nat → Nat)
    (hp : 0 < cfg.passenger_cac) (hd : 0 < cfg.driver_cac)
    (hπ : 0 ≤ cfg.profit_per_ride) (hf : 0 ≤ cfg.co_funding) (n : Nat) :
    0 ≤ (modelStep^[n] (initModel cfg seed gseed)).company.funding ∧
      ¬((modelStep^[n] (initModel cfg seed gseed)).company.funding < 0) ∧
      0 ≤ (allocate_budget
            (modelStep^[n] (initModel cfg seed gseed))).passenger_budget +
          (allocate_budget
            (modelStep^[n] (initModel cfg seed gseed))).driver_budget ∧
      ¬((allocate_budget
            (modelStep^[n] (initModel cfg seed gseed))).passenger_budget +
          (allocate_budget
            (modelStep^[n] (initModel cfg seed gseed))).driver_budget <
          0) := by
  have hcfg : ∀ m, (modelStep^[m] (initModel cfg seed gseed)).cfg = cfg := by
    intro m
    induction m with
    | zero => rfl
    | succ m ih =>
      rw [Function.iterate_succ_apply', modelStep_cfg]
      exact ih
  have hfund : ∀ m,
      0 ≤ (modelStep^[m] (initModel cfg seed gseed)).company.funding := by
    intro m
    induction m with
    | zero => exact hf
    | succ m ih =>
      rw [Function.iterate_succ_apply']
      refine funding_nonneg_modelStep _ ?_ ih
      rw [hcfg m]
      exact hπ
  have hsum := sum_nonneg_alloc (modelStep^[n] (initModel cfg seed gseed))
    (hfund n) (by rw [hcfg n]; exact hp.le) (by rw [hcfg n]; exact hd.le)
  exact ⟨hfund n, not_lt.mpr (hfund n), hsum, not_lt.mpr hsum⟩

/-- Witness for C10 at the concrete configuration after one round. -/
theorem c10_funding_invariant_witness :
    (0 < cfgA.passenger_cac ∧ 0 < cfgA.driver_cac ∧
        0 ≤ cfgA.profit_per_ride ∧ 0 ≤ cfgA.co_funding) ∧
      (0 ≤ (modelStep^[1] (initModel cfgA seedA gZero)).company.funding ∧
        ¬((modelStep^[1] (initModel cfgA seedA gZero)).company.funding <
          0) ∧
        0 ≤ (allocate_budget
              (modelStep^[1] (initModel cfgA seedA gZero))).passenger_budget +
            (allocate_budget
              (modelStep^[1] (initModel cfgA seedA gZero))).driver_budget ∧
        ¬((allocate_budget
              (modelStep^[1] (initModel cfgA seedA gZero))).passenger_budget +
            (allocate_budget
              (modelStep^[1] (initModel cfgA seedA gZero))).driver_budget <
            0)) :=
  ⟨⟨by decide, by decide, by decide, by decide⟩,
    c10_funding_invariant cfgA seedA gZero (by decide) (by decide)
      (by decide) (by decide) 1⟩

/-- C9 (amended): at any allocation state with nonnegative funding and
positive CACs — which covers every reachable state when `profit_per_ride ≥
0`, by the C10 invariant — the number of agents sampled for marketing in
each class is at most the number of inactive agents of that class, and
`random.sample`'s failure condition cannot hold for either call. -/
theorem c9_sampling_structurally_safe (s : ModelState)
    (h : 0 ≤ s.company.funding) (hp : 0 < s.cfg.passenger_cac)
    (hd : 0 < s.cfg.driver_cac) :
    (allocate_budget s).num_passengers_to_market ≤
        ((inactivePassengerIdx s).length : Int) ∧
      (allocate_budget s).num_drivers_to_market ≤
        ((inactiveDriverIdx s).length : Int) ∧
      ¬sample_raises (allocate_budget s).num_passengers_to_market
        (inactivePassengerIdx s).length ∧
      ¬sample_raises (allocate_budget s).num_drivers_to_market
        (inactiveDriverIdx s).length := by
  have h1 : (allocate_budget s).num_passengers_to_market ≤
      ((inactivePassengerIdx s).length : Int) := by
    rw [nP_def]
    exact min_le_left _ _
  have h2 : (allocate_budget s).num_drivers_to_market ≤
      ((inactiveDriverIdx s).length : Int) := by
    rw [nD_def]
    exact min_le_left _ _
  refine ⟨h1, h2, ?_, ?_⟩
  · unfold sample_raises
    rw [not_or]
    exact ⟨not_lt.mpr (nP_nonneg s h hp), not_lt.mpr h1⟩
  · unfold sample_raises
    rw [not_or]
    exact ⟨not_lt.mpr (nD_nonneg s h hd), not_lt.mpr h2⟩

/-- Witness for the amended C9 at a concrete state. -/
theorem c9_sampling_structurally_safe_witness :
    (0 ≤ sPlain.company.funding ∧ 0 < sPlain.cfg.passenger_cac ∧
        0 < sPlain.cfg.driver_cac) ∧
      ((allocate_budget sPlain).num_passengers_to_market ≤
          ((inactivePassengerIdx sPlain).length : Int) ∧
        (allocate_budget sPlain).num_drivers_to_market ≤
          ((inactiveDriverIdx sPlain).length : Int) ∧
        ¬sample_raises (allocate_budget sPlain).num_passengers_to_market
          (inactivePassengerIdx sPlain).length ∧
        ¬sample_raises (allocate_budget sPlain).num_drivers_to_market
          (inactiveDriverIdx sPlain).length) :=
  ⟨⟨by decide, by decide, by decide⟩,
    c9_sampling_structurally_safe sPlain (by decide) (by decide)
      (by decide)⟩

set_option maxHeartbeats 1600000 in
/-- C1 (amended): between rounds `rides_this_round` always equals the
count of passengers with `had_ride = true`; an executed round appends to
`revenue_history` the value `profit_per_ride` times the `rides_this_round`
counter as consumed at the start of the round — which equals the count of
passengers with `had_ride = true` at the END OF THE PREVIOUS round, not of
the round whose statistics are computed — and re-establishes the
invariant, so at the new round's end the counter again matches the flags.
The counter is consumed before being reset to 0. -/
theorem c1_revenue_lags (s : ModelState) (hJ : ridesInvariant s) :
    ridesInvariant (modelStep s) ∧
      (s.running = true →
        (modelStep s).company.revenue_history =
          s.company.revenue_history ++
            [s.cfg.profit_per_ride * (countHadRide s.passengers : Rat)]) := by
  unfold ridesInvariant at hJ
  cases hr : s.running
  · rw [modelStep_not_running s hr]
    exact ⟨hJ, fun h => absurd h Bool.false_ne_true⟩
  · rw [modelStep_running s hr]
    constructor
    · unfold ridesInvariant
      rw [congrArg Company.rides_this_round (churnPhase_company
        (calculate_statistics (schedulePhase (companyStep s))))]
      rw [show (calculate_statistics
          (schedulePhase (companyStep s))).company.rides_this_round =
        (schedulePhase (companyStep s)).company.rides_this_round from rfl]
      rw [churnPhase_countHadRide]
      rw [show countHadRide (calculate_statistics
          (schedulePhase (companyStep s))).passengers =
        countHadRide (schedulePhase (companyStep s)).passengers from rfl]
      rw [(schedulePhase_rides (companyStep s)).2, companyStep_rides]
      exact Nat.zero_add _
    · intro _
      rw [finView_revenue_history (finView_churnPhase
        (calculate_statistics (schedulePhase (companyStep s))))]
      rw [show (calculate_statistics
          (schedulePhase (companyStep s))).company.revenue_history =
        (schedulePhase (companyStep s)).company.revenue_history from rfl]
      rw [finView_revenue_history (finView_schedulePhase (companyStep s))]
      rw [companyStep_revenue_history, companyStep_revenue]
      rw [hJ]

/-- Witness for the amended C1: the freshly initialised model satisfies
the invariant, and one step from it behaves as stated. -/
theorem c1_revenue_lags_witness :
    ridesInvariant (initModel cfgA seedA gZero) ∧
      (ridesInvariant (modelStep (initModel cfgA seedA gZero)) ∧
        ((initModel cfgA seedA gZero).running = true →
          (modelStep (initModel cfgA seedA gZero)).company.revenue_history =
            (initModel cfgA seedA gZero).company.revenue_history ++
              [(initModel cfgA seedA gZero).cfg.profit_per_ride *
                (countHadRide
                  (initModel cfgA seedA gZero).passengers : Rat)])) :=
  ⟨rfl, c1_revenue_lags (initModel cfgA seedA gZero) rfl⟩

/-- C1 counterexample: in round 1 of the concrete run a ride happens (one
passenger ends the round with `had_ride = true`, `profit_per_ride = 2`),
yet the revenue the Company records during that round is `0`, because
`Company.step` consumes `rides_this_round` at the start of the round,
before the round's matches happen. -/
theorem c1_counterexample :
    (runA 1).company.revenue_history = [0] ∧
      countHadRide (runA 1).passengers = 1 ∧
      cfgA.profit_per_ride = 2 ∧
      (runA 1).company.revenue_history.getD 0 0 ≠
        cfgA.profit_per_ride * (countHadRide (runA 1).passengers : Rat) := by
  refine ⟨by with_unfolding_all rfl, by with_unfolding_all rfl, rfl, ?_⟩
  have h1 : (runA 1).company.revenue_history.getD 0 0 = 0 := by
    with_unfolding_all rfl
  have h2 : cfgA.profit_per_ride * (countHadRide (runA 1).passengers : Rat)
      = 2 := by
    with_unfolding_all rfl
  rw [h1, h2]
  decide

/-- C2: two runs with identical configuration and identical seeded stream
— the initial states differ only in the state of the process-global
`random` module — produce different `revenue_history` and `cash_history`
sequences, because `check_for_driver` draws the matched driver from the
global module (line 180) instead of the model's seeded source. -/
theorem c2_global_choice_divergence :
    initModel cfgA seedA gZero =
        { initModel cfgA seedA gOne with grng := ⟨gZero, 0⟩ } ∧
      (runA 3).company.revenue_history ≠
        (runB 3).company.revenue_history ∧
      (runA 3).company.cash_history ≠ (runB 3).company.cash_history := by
  refine ⟨by with_unfolding_all rfl, ?_, ?_⟩
  · have h1 : (runA 3).company.revenue_history = [0, 2, 2] := by
      with_unfolding_all rfl
    have h2 : (runB 3).company.revenue_history = [0, 2, 0] := by
      with_unfolding_all rfl
    rw [h1, h2]
    decide
  · have h1 : (runA 3).company.cash_history = [40, 22, 13] := by
      with_unfolding_all rfl
    have h2 : (runB 3).company.cash_history = [40, 22, 11] := by
      with_unfolding_all rfl
    rw [h1, h2]
    decide

/-- C6 counterexample: in round 1 of the concrete run the Company ends the
round with `funding = 40` (`80` opening funding, `0` revenue, `40` spend
deducted once), but the published row's cash column is `0`:
`calculate_statistics` computes `funding - spending` on a funding that was
already debited, deducting the round's spend a second time. -/
theorem c6_counterexample :
    (runA 1).stats.length = 1 ∧
      ((runA 1).stats.getD 0 dummyRow).cash = 0 ∧
      ((runA 1).stats.getD 0 dummyRow).spend = 40 ∧
      (runA 1).company.revenue = 0 ∧
      (runA 1).company.funding = 40 ∧
      ((runA 1).stats.getD 0 dummyRow).cash ≠ (runA 1).company.funding := by
  refine ⟨by with_unfolding_all rfl, by with_unfolding_all rfl,
    by with_unfolding_all rfl, by with_unfolding_all rfl,
    by with_unfolding_all rfl, ?_⟩
  have h1 : ((runA 1).stats.getD 0 dummyRow).cash = 0 := by
    with_unfolding_all rfl
  have h2 : (runA 1).company.funding = 40 := by
    with_unfolding_all rfl
  rw [h1, h2]
  decide

/-- C9 counterexample: a reachable state (two completed rounds, negative
`profit_per_ride`, still `running`) in which the next round's allocation
asks `random.sample` for a negative number of passengers, which raises
`ValueError` and aborts the Python process. -/
theorem c9_counterexample :
    (runNeg 2).running = true ∧
      (allocate_budget (runNeg 2)).num_passengers_to_market = -42 ∧
      sample_raises (allocate_budget (runNeg 2)).num_passengers_to_market
        (inactivePassengerIdx (runNeg 2)).length := by
  refine ⟨by with_unfolding_all rfl, by with_unfolding_all rfl, ?_⟩
  unfold sample_raises
  left
  have h : (allocate_budget (runNeg 2)).num_passengers_to_market = -42 := by
    with_unfolding_all rfl
  rw [h]
  decide

/-- Witness for the amended C3 at a concrete 21-round history. -/
theorem c3_sustainability_stop_witness :
    (sHist21.running = true ∧
        min sHist21.cfg.passenger_cac sHist21.cfg.driver_cac ≤
          sHist21.company.funding ∧
        0 ≤ sHist21.company.funding) ∧
      ((allocate_budget sHist21).running = false ↔
        (sHist21.company.cash_history.length > 20 ∧
          sHist21.company.cash_history.getD
              (sHist21.company.cash_history.length - 1) 0 >
            sHist21.company.cash_history.getD
              (sHist21.company.cash_history.length - 20) 0)) :=
  ⟨⟨rfl, by with_unfolding_all decide, by decide⟩,
    c3_sustainability_stop sHist21 rfl (by with_unfolding_all decide)
      (by decide) (by decide) (by decide)⟩

end Slog
